import Mathlib

/-!
Verification of the limiter package (limiter.go, common.go): an IP-keyed
token-bucket rate limiter with a concurrent registry, idle-entry eviction,
an allow-list, and http/gin middleware adapters.

Modelling conventions:
* durations and timestamps are Int nanoseconds (Go time.Duration / time.Time);
* a rate.Limiter object is identified by the Nat id of its allocation, so that
  bucket-object identity (pointer equality) is expressible;
* the Go map storage of type map[string]*record is an association list of
  String to Option record, where none stands for a nil record pointer;
* fallible or panicking steps return Option / Except.
-/

namespace Limiter

/-! Constants from common.go. -/

def second : Int := 1000000000

def minute : Int := 60 * second

def defaultRps : Int := 10

def defaultBurst : Int := 20

def defaultTTL : Int := 5 * minute

def defaultCleanupFrequency : Int := 5 * minute

def defaultPeriod : Int := second

def XOFF : String := "x-original-forwarded-for"

def tooManyReqMsg : String := "Too many requests"

/-- limiterOptions from common.go. limiter.go uses allowedIPs as a slice
(slices.Contains and append), so it is a List String here. -/
structure LimiterOptions where
  ttl : Int
  customPeriod : Bool
  period : Int
  burst : Int
  requests : Int
  cleanupFreq : Int
  ipHeader : String
  allowedPrefix : List String
  allowedIPs : List String
deriving Repr, DecidableEq

/-- defautlOptions from limiter.go (source spelling kept). -/
def defautlOptions : LimiterOptions :=
  { ttl := defaultTTL
    customPeriod := false
    period := defaultPeriod
    burst := defaultBurst
    requests := defaultRps
    cleanupFreq := defaultCleanupFrequency
    ipHeader := XOFF
    allowedPrefix := []
    allowedIPs := [] }

/-- RpsWithBurst from limiter.go: note the negative-burst branch assigns
defaultRps, exactly as in the source. -/
def RpsWithBurst (rps burst : Int) : LimiterOptions → LimiterOptions :=
  let rps := if rps < 0 then defaultRps else rps
  let burst := if burst < 0 then defaultRps else burst
  fun opts => { opts with requests := rps, burst := burst }

/-- Rps from limiter.go. -/
def Rps (rps : Int) : LimiterOptions → LimiterOptions :=
  let rps := if rps < 0 then defaultRps else rps
  fun opts => { opts with requests := rps, burst := rps }

/-- Burst from limiter.go. -/
def Burst (burst : Int) : LimiterOptions → LimiterOptions :=
  let burst := if burst < 0 then defaultBurst else burst
  fun opts => { opts with burst := burst }

/-- Period from limiter.go. -/
def Period (requests : Int) (period : Int) : LimiterOptions → LimiterOptions :=
  let period := if period < 0 then defaultPeriod else period
  let requests := if requests < 0 then 0 else requests
  fun opts => { opts with period := period, customPeriod := true, requests := requests }

/-- CleanupFrequency from limiter.go. -/
def CleanupFrequency (cf : Int) : LimiterOptions → LimiterOptions :=
  let cf := if cf ≤ 0 then defaultCleanupFrequency else cf
  fun opts => { opts with cleanupFreq := cf }

/-- RecordTTL from limiter.go. -/
def RecordTTL (ttl : Int) : LimiterOptions → LimiterOptions :=
  let ttl := if ttl < 0 then defaultTTL else ttl
  fun opts => { opts with ttl := ttl }

/-- AllowedIPs from limiter.go. -/
def AllowedIPs (ip : List String) : LimiterOptions → LimiterOptions :=
  fun opts => { opts with allowedIPs := opts.allowedIPs ++ ip }

/-- AllowedPrefixes from limiter.go. -/
def AllowedPrefixes (pre : List String) : LimiterOptions → LimiterOptions :=
  fun opts => { opts with allowedPrefix := opts.allowedPrefix ++ pre }

/-- The options part of New from limiter.go: defaults, then each option applied. -/
def applyOptions (opts : List (LimiterOptions → LimiterOptions)) : LimiterOptions :=
  opts.foldl (fun o f => f o) defautlOptions

/-- hasWhitelistedPrefix from limiter.go; strings.HasPrefix(ip, v) is prefix
on the character sequences. -/
def hasWhitelistedPrefix (opts : LimiterOptions) (ip : String) : Bool :=
  opts.allowedPrefix.any fun v => v.data.isPrefixOf ip.data

/-- whiteListed from limiter.go (slices.Contains on allowedIPs, then prefixes). -/
def whiteListed (opts : LimiterOptions) (ip : String) : Bool :=
  opts.allowedIPs.contains ip || hasWhitelistedPrefix opts ip

/-! The registry: storage map[string]*record, from common.go and limiter.go. -/

/-- record from common.go; limiter is the allocation id of the rate.Limiter. -/
structure record where
  lastSeen : Int
  limiter : Nat
deriving Repr, DecidableEq

/-- The storage map, a Go map[string]*record: none models a nil pointer. -/
abbrev Storage := List (String × Option record)

/-- Go map read m[ip]: some v when the key is present (v the stored pointer),
none when absent. -/
def lookupS : Storage → String → Option (Option record)
  | [], _ => none
  | kv :: rest, k => if kv.1 = k then some kv.2 else lookupS rest k

/-- Go map assignment m[k] = v: replaces the slot or adds the key. -/
def insertS : Storage → String → Option record → Storage
  | [], k, v => [(k, v)]
  | kv :: rest, k, v => if kv.1 = k then (k, v) :: rest else kv :: insertS rest k v

/-- The mutable state of a limiter: its storage and the id the next created
rate.Limiter object gets. -/
structure limiterState where
  storage : Storage
  nextId : Nat
deriving Repr, DecidableEq

/-- New from limiter.go starts with storage := make(map[string]*record). -/
def initState : limiterState := { storage := [], nextId := 0 }

/-- The first critical section of visitor (limiter.go): the RLock-guarded
map read. -/
def visitorRead (s : limiterState) (ip : String) : Option (Option record) :=
  lookupS s.storage ip

/-- The rest of visitor (limiter.go), acting on the result of the earlier
read: on a miss it creates a fresh rate.Limiter, inserts a new record under
the write lock and returns the limiter it created; on a hit of a non-nil
record it updates lastSeen and returns that record's limiter; on a hit of a
nil record it skips the update and the final v.limiter dereference panics,
modelled as none. -/
def visitorWrite (s : limiterState) (ip : String) (found : Option (Option record))
    (now : Int) : Option (Nat × limiterState) :=
  match found with
  | none =>
    let l := s.nextId
    some (l, { storage := insertS s.storage ip (some { lastSeen := now, limiter := l })
               nextId := s.nextId + 1 })
  | some none => none
  | some (some v) =>
    some (v.limiter,
      { s with storage := insertS s.storage ip (some { v with lastSeen := now }) })

/-- visitor from limiter.go: the read phase followed by the write phase, as a
single uninterrupted call. -/
def visitor (s : limiterState) (ip : String) (now : Int) : Option (Nat × limiterState) :=
  visitorWrite s ip (visitorRead s ip) now

/-- The two if statements in cleanup's scan loop (limiter.go): a nil record
appends the key twice, an expired one appends it once. The second condition
short-circuits: v == nil or time.Since(v.lastSeen) >= ttl. -/
def expEntry (ttl now : Int) (kv : String × Option record) : List String :=
  (if kv.2 = none then [kv.1] else []) ++
    (if (match kv.2 with
         | none => true
         | some v => decide (ttl ≤ now - v.lastSeen)) then [kv.1] else [])

/-- cleanup from limiter.go. The scratch list exp is created by
make([]string, len(storage) div 2), which is a slice of that LENGTH already
holding that many empty strings; the scan loop then appends the keys it finds
past them, and the delete loop deletes every key in exp, the pre-filled empty
strings included. -/
def cleanup (ttl now : Int) (storage : Storage) : Storage :=
  let exp := List.replicate (storage.length >>> 1) "" ++
    (storage.map (expEntry ttl now)).flatten
  storage.filter fun kv => !(exp.contains kv.1)

/-! Stop and the stop channel, from limiter.go and Go channel semantics. -/

/-- A Go channel, reduced to the one bit Stop uses: whether it is closed. -/
structure GoChan where
  closed : Bool
deriving Repr, DecidableEq

/-- Go's close builtin: closing an already-closed channel panics. -/
def closeChan (c : GoChan) : Except String GoChan :=
  if c.closed then Except.error "close of closed channel"
  else Except.ok { closed := true }

/-- The stop-channel part of the limiter struct; New fills it with a fresh
open channel. -/
structure stopState where
  stop : GoChan
deriving Repr, DecidableEq

/-- New from limiter.go: stop := make(chan struct). -/
def newStop : stopState := { stop := { closed := false } }

/-- Stop from limiter.go: an unguarded close(lim.stop). -/
def Stop (l : stopState) : Except String stopState :=
  match closeChan l.stop with
  | Except.ok c => Except.ok { l with stop := c }
  | Except.error e => Except.error e

/-! The middleware adapters, after identity extraction (out of scope): what
each wrapper does with the extracted ip. The admission decision of the
external rate.Limiter object l is supplied as the oracle allow l. -/

/-- What a middleware invocation did: whether the downstream handler ran and
whether the 429 response was written. -/
structure mwResult where
  served : Bool
  status429 : Bool
deriving Repr, DecidableEq

/-- The body of Limit from limiter.go, after ip extraction: a whitelisted ip
returns before the registry is consulted. -/
def limitMW (allow : Nat → Bool) (opts : LimiterOptions) (s : limiterState)
    (ip : String) (now : Int) : Option (mwResult × limiterState) :=
  if whiteListed opts ip then
    some ({ served := true, status429 := false }, s)
  else
    match visitor s ip now with
    | none => none
    | some (l, s1) =>
      if allow l then some ({ served := true, status429 := false }, s1)
      else some ({ served := false, status429 := true }, s1)

/-- The body of GinLimit from limiter.go, after ip extraction: the
whitelisted branch calls c.Next() but has no return, so control falls through
to the visitor call and the admission check in every case. -/
def ginLimitMW (allow : Nat → Bool) (opts : LimiterOptions) (s : limiterState)
    (ip : String) (now : Int) : Option (mwResult × limiterState) :=
  let wl := whiteListed opts ip
  match visitor s ip now with
  | none => none
  | some (l, s1) =>
    if allow l then some ({ served := true, status429 := false }, s1)
    else some ({ served := wl, status429 := true }, s1)

/-! Sequential executions of the limiter: any interleaving of lookups and
sweeps, starting from New's empty storage. -/

/-- One registry operation: a visitor lookup or one cleanup sweep. -/
inductive Op where
  | visit (ip : String) (now : Int)
  | clean (ttl now : Int)
deriving Repr, DecidableEq

/-- Execute one operation; a visitor panic (impossible from reachable states,
see the invariant below) leaves the state unchanged. -/
def stepOp (s : limiterState) : Op → limiterState
  | Op.visit ip now =>
    match visitor s ip now with
    | some r => r.2
    | none => s
  | Op.clean ttl now => { s with storage := cleanup ttl now s.storage }

/-- The state after a sequence of operations, from New's initial state. -/
def run (ops : List Op) : limiterState := ops.foldl stepOp initState

/-- The registry invariant: every stored record pointer is non-nil. -/
def Inv (s : limiterState) : Prop := ∀ kv ∈ s.storage, kv.2 ≠ none

/-! The per-identity token bucket. Its implementation, golang.org/x/time/rate,
is an external dependency and not among the repository's files, so it is
modelled from the spec. -/

/-- Modelled from the spec: the token-bucket state of section 3 (the
rate.Limiter the repository delegates to is not part of its files). Token
counts are conceptually continuous, so tokens, rates and times are
rationals. -/
structure Bucket where
  capacity : Rat
  refillRate : Rat
  tokens : Rat
  lastRefill : Rat
deriving Repr, DecidableEq

/-- Modelled from the spec: tryAdmit of section 4.1. Recompute
tokens = min(capacity, tokens + elapsed * refillRate) with elapsed clamped at
zero, set lastRefill to now, then admit and take one token when at least one
is available, else reject leaving the recomputed count. -/
def tryAdmit (b : Bucket) (now : Rat) : Bool × Bucket :=
  let elapsed := max 0 (now - b.lastRefill)
  let t := min b.capacity (b.tokens + elapsed * b.refillRate)
  if 1 ≤ t then (true, { b with tokens := t - 1, lastRefill := now })
  else (false, { b with tokens := t, lastRefill := now })

/-- The admission results of a sequence of tryAdmit calls at the given times. -/
def runBucket (b : Bucket) : List Rat → List Bool
  | [] => []
  | t :: ts =>
    let r := tryAdmit b t
    r.1 :: runBucket r.2 ts

/-- The refill rate New computes (limiter.go):
rate.Limit(float64(o.requests) / o.period.Seconds()). -/
def mkLimit (requests : Int) (periodSeconds : Rat) : Rat :=
  requests / periodSeconds

end Limiter

namespace Limiter

/-! Association-list lemmas for the storage map. -/

theorem lookupS_insertS_self (st : Storage) (k : String) (v : Option record) :
    lookupS (insertS st k v) k = some v := by
  induction st with
  | nil => simp [insertS, lookupS]
  | cons kv rest ih =>
    by_cases h : kv.1 = k
    · simp [insertS, h, lookupS]
    · simp [insertS, h, lookupS, ih]

theorem lookupS_insertS_ne (st : Storage) (k : String) (v : Option record)
    (k' : String) (h : k' ≠ k) : lookupS (insertS st k v) k' = lookupS st k' := by
  have h' : ¬(k = k') := fun e => h e.symm
  induction st with
  | nil => simp [insertS, lookupS, h']
  | cons kv rest ih =>
    obtain ⟨k0, v0⟩ := kv
    by_cases hk : k0 = k
    · subst hk
      simp [insertS, lookupS, h']
    · simp only [insertS, hk, if_false, lookupS]
      by_cases he : k0 = k'
      · simp [he]
      · simp [he, ih]

theorem lookupS_mem (st : Storage) (k : String) (w : Option record)
    (h : lookupS st k = some w) : (k, w) ∈ st := by
  induction st with
  | nil => simp [lookupS] at h
  | cons kv rest ih =>
    obtain ⟨k0, v0⟩ := kv
    by_cases hk : k0 = k
    · subst hk
      simp [lookupS] at h
      simp [h]
    · simp [lookupS, hk] at h
      exact List.mem_cons_of_mem _ (ih h)

theorem mem_insertS (st : Storage) (k : String) (v : Option record)
    (kv : String × Option record) (h : kv ∈ insertS st k v) :
    kv = (k, v) ∨ kv ∈ st := by
  induction st with
  | nil =>
    simp [insertS] at h
    exact Or.inl h
  | cons kv0 rest ih =>
    obtain ⟨k0, v0⟩ := kv0
    by_cases hk : k0 = k
    · simp only [insertS, hk, if_true] at h
      rcases List.mem_cons.mp h with h1 | h1
      · exact Or.inl h1
      · exact Or.inr (List.mem_cons_of_mem _ h1)
    · simp only [insertS, hk, if_false] at h
      rcases List.mem_cons.mp h with h1 | h1
      · exact Or.inr (by simp [h1])
      · rcases ih h1 with h2 | h2
        · exact Or.inl h2
        · exact Or.inr (List.mem_cons_of_mem _ h2)

end Limiter

namespace Limiter

theorem Inv_initState : Inv initState := by
  intro kv h
  simp [initState] at h

theorem Inv_visitorWrite (s : limiterState) (hs : Inv s) (ip : String)
    (fd : Option (Option record)) (now : Int) (l : Nat) (s1 : limiterState)
    (h : visitorWrite s ip fd now = some (l, s1)) : Inv s1 := by
  match fd with
  | none =>
    simp only [visitorWrite, Option.some.injEq, Prod.mk.injEq] at h
    obtain ⟨h1, h2⟩ := h
    subst h2
    intro kv hkv
    rcases mem_insertS _ _ _ _ hkv with he | he
    · subst he; simp
    · exact hs _ he
  | some none => simp [visitorWrite] at h
  | some (some v) =>
    simp only [visitorWrite, Option.some.injEq, Prod.mk.injEq] at h
    obtain ⟨h1, h2⟩ := h
    subst h2
    intro kv hkv
    rcases mem_insertS _ _ _ _ hkv with he | he
    · subst he; simp
    · exact hs _ he

theorem Inv_visitor (s : limiterState) (hs : Inv s) (ip : String) (now : Int)
    (l : Nat) (s1 : limiterState) (h : visitor s ip now = some (l, s1)) : Inv s1 :=
  Inv_visitorWrite s hs ip (visitorRead s ip) now l s1 h

theorem Inv_cleanup (ttl now : Int) (s : limiterState) (hs : Inv s) :
    Inv { s with storage := cleanup ttl now s.storage } := by
  intro kv hkv
  simp only [cleanup] at hkv
  exact hs _ (List.mem_filter.mp hkv).1

theorem Inv_stepOp (s : limiterState) (hs : Inv s) (op : Op) : Inv (stepOp s op) := by
  cases op with
  | visit ip now =>
    simp only [stepOp]
    cases h : visitor s ip now with
    | none => simpa [h] using hs
    | some r =>
      obtain ⟨l, s1⟩ := r
      simpa [h] using Inv_visitor s hs ip now l s1 h
  | clean ttl now => exact Inv_cleanup ttl now s hs

theorem Inv_foldl (ops : List Op) (s : limiterState) (hs : Inv s) :
    Inv (ops.foldl stepOp s) := by
  induction ops generalizing s with
  | nil => simpa using hs
  | cons op rest ih => exact ih _ (Inv_stepOp s hs op)

theorem Inv_run (ops : List Op) : Inv (run ops) := Inv_foldl ops initState Inv_initState

theorem visitor_isSome (s : limiterState) (hs : Inv s) (ip : String) (t : Int) :
    (visitor s ip t).isSome = true := by
  unfold visitor
  cases hr : visitorRead s ip with
  | none => simp [visitorWrite]
  | some w =>
    cases w with
    | none => exact absurd rfl (hs _ (lookupS_mem _ _ _ hr))
    | some v => simp [visitorWrite]

/-- C1: the claim fails on the code and the intent of the spec is clear: one
sweep does delete every entry whose age is at least ttl, but the scratch list
built by make([]string, len(storage) div 2) already holds len div 2
empty-string keys, so the delete loop also removes a fresh entry keyed by the
empty-string identity whenever the map holds at least two entries. Here, with
ttl 50 and now 100, the empty-identity entry has age 0 (its expEntry scan
output is empty, first conjunct), yet it is gone after the sweep (second
conjunct); the idle entry a is removed as specified (third conjunct). -/
theorem cleanup_deletes_fresh_empty_key :
    expEntry 50 100 ("", some { lastSeen := 100, limiter := 0 }) = [] ∧
    lookupS (cleanup 50 100 [("", some { lastSeen := 100, limiter := 0 }),
      ("a", some { lastSeen := 0, limiter := 1 })]) "" = none ∧
    lookupS (cleanup 50 100 [("", some { lastSeen := 100, limiter := 0 }),
      ("a", some { lastSeen := 0, limiter := 1 })]) "a" = none := by
  decide

/-- C2: the claim fails on the code: when two callers both pass the RLock-read
phase of visitor for the unseen identity addr before either takes the write
lock, each creates its own rate.Limiter and returns it. The interleaving
below gives the first caller bucket 0 and the second bucket 1 (two different
bucket objects for one identity, two burst allowances), while the registry
retains only the second caller's bucket. -/
theorem race_two_buckets :
    visitorRead initState "addr" = none ∧
    visitorWrite initState "addr" (visitorRead initState "addr") 0 =
      some (0, { storage := [("addr", some { lastSeen := 0, limiter := 0 })],
                 nextId := 1 }) ∧
    visitorWrite { storage := [("addr", some { lastSeen := 0, limiter := 0 })],
                   nextId := 1 }
        "addr" (visitorRead initState "addr") 0 =
      some (1, { storage := [("addr", some { lastSeen := 0, limiter := 1 })],
                 nextId := 2 }) ∧
    (0 : Nat) ≠ 1 := by
  decide

/-- C3: the claim holds for the plain http Limit wrapper (second conjunct: the
whitelisted request is served with no 429 and the state is returned
untouched) but fails for GinLimit: its whitelisted branch calls c.Next()
without returning, so the call falls through to visitor, creates a registry
entry for the allow-listed identity 1.1.1.1 and, when the bucket rejects,
also writes the 429 response (third conjunct). -/
theorem ginLimit_whitelisted_touches_registry :
    whiteListed (AllowedIPs ["1.1.1.1"] defautlOptions) "1.1.1.1" = true ∧
    limitMW (fun _ => false) (AllowedIPs ["1.1.1.1"] defautlOptions)
        initState "1.1.1.1" 0 =
      some ({ served := true, status429 := false }, initState) ∧
    ginLimitMW (fun _ => false) (AllowedIPs ["1.1.1.1"] defautlOptions)
        initState "1.1.1.1" 0 =
      some ({ served := true, status429 := true },
        { storage := [("1.1.1.1", some { lastSeen := 0, limiter := 0 })],
          nextId := 1 }) := by
  decide

/-- C4: the claim fails on the code: Stop is an unguarded close(lim.stop), and
closing a closed Go channel panics, so the second Stop call panics rather
than being idempotent or returning an error. -/
theorem double_stop_panics :
    Stop newStop = Except.ok { stop := { closed := true } } ∧
    Stop { stop := { closed := true } } = Except.error "close of closed channel" :=
  ⟨rfl, rfl⟩

/-- C5: the claim fails on the code in one place: RpsWithBurst corrects a
negative burst to defaultRps, which is 10, not to the documented default
burst of 20 (first two conjuncts); negative rps, ttl and period are corrected
to their documented defaults as claimed (remaining conjuncts). -/
theorem negative_burst_corrected_to_rps_default :
    (RpsWithBurst 5 (-1) defautlOptions).burst = 10 ∧
    defaultBurst = 20 ∧
    (RpsWithBurst (-1) 7 defautlOptions).requests = 10 ∧
    (RecordTTL (-1) defautlOptions).ttl = defaultTTL ∧
    (Period 3 (-1) defautlOptions).period = defaultPeriod := by
  decide

end Limiter

namespace Limiter

/-- C6: on every state reachable from New's empty registry by any sequence of
lookups and sweeps, every stored record pointer is non-nil (second conjunct),
so a lookup for any identity never takes the found-but-nil branch and never
dereferences a nil record: visitor always returns a bucket (first conjunct). -/
theorem registry_records_never_nil (ops : List Op) (ip : String) (t : Int) :
    (visitor (run ops) ip t).isSome = true ∧
    ((run ops).storage.all fun kv => kv.2.isSome) = true := by
  have hs := Inv_run ops
  refine ⟨visitor_isSome _ hs ip t, ?_⟩
  rw [List.all_eq_true]
  intro kv hkv
  exact Option.isSome_iff_ne_none.mpr (hs kv hkv)

/-- C8: on every reachable registry state, the empty string is keyed like any
other identity: a lookup with the empty-string identity and a second lookup
right after it (no intervening eviction) succeed and hand back the same
bucket object l. -/
theorem empty_identity_one_bucket (ops : List Op) (t1 t2 : Int) :
    ∃ l s1 s2, visitor (run ops) "" t1 = some (l, s1) ∧
      visitor s1 "" t2 = some (l, s2) := by
  have hs := Inv_run ops
  cases hr : lookupS (run ops).storage "" with
  | none =>
    refine ⟨(run ops).nextId,
      limiterState.mk
        (insertS (run ops).storage "" (some (record.mk t1 (run ops).nextId)))
        ((run ops).nextId + 1),
      limiterState.mk
        (insertS (insertS (run ops).storage "" (some (record.mk t1 (run ops).nextId)))
          "" (some (record.mk t2 (run ops).nextId)))
        ((run ops).nextId + 1), ?_, ?_⟩
    · unfold visitor visitorRead
      rw [hr]
      rfl
    · have h2 : visitorRead
          (limiterState.mk
            (insertS (run ops).storage "" (some (record.mk t1 (run ops).nextId)))
            ((run ops).nextId + 1)) "" =
          some (some (record.mk t1 (run ops).nextId)) := by
        unfold visitorRead
        exact lookupS_insertS_self _ _ _
      unfold visitor
      rw [h2]
      rfl
  | some w =>
    cases w with
    | none => exact (hs _ (lookupS_mem _ _ _ hr) rfl).elim
    | some v =>
      refine ⟨v.limiter,
        limiterState.mk
          (insertS (run ops).storage "" (some (record.mk t1 v.limiter)))
          (run ops).nextId,
        limiterState.mk
          (insertS (insertS (run ops).storage "" (some (record.mk t1 v.limiter)))
            "" (some (record.mk t2 v.limiter)))
          (run ops).nextId, ?_, ?_⟩
      · unfold visitor visitorRead
        rw [hr]
        rfl
      · have h2 : visitorRead
            (limiterState.mk
              (insertS (run ops).storage "" (some (record.mk t1 v.limiter)))
              (run ops).nextId) "" =
            some (some (record.mk t1 v.limiter)) := by
          unfold visitorRead
          exact lookupS_insertS_self _ _ _
        unfold visitor
        rw [h2]
        rfl

theorem visitor_storage_insert (s : limiterState) (ip : String) (t : Int) (l : Nat)
    (s1 : limiterState) (h : visitor s ip t = some (l, s1)) :
    ∃ r, s1.storage = insertS s.storage ip (some r) := by
  unfold visitor at h
  cases hr : visitorRead s ip with
  | none =>
    rw [hr] at h
    simp only [visitorWrite, Option.some.injEq, Prod.mk.injEq] at h
    exact ⟨_, by rw [← h.2]⟩
  | some w =>
    cases w with
    | none =>
      rw [hr] at h
      simp [visitorWrite] at h
    | some v =>
      rw [hr] at h
      simp only [visitorWrite, Option.some.injEq, Prod.mk.injEq] at h
      exact ⟨_, by rw [← h.2]⟩

/-- C9: a lookup never removes a registry entry. On any reachable state, after
a visitor call for identity ip, every key present before is still present,
and every key present afterwards was present before or is ip itself. -/
theorem visitor_only_adds (ops : List Op) (ip : String) (t : Int) (l : Nat)
    (s1 : limiterState) (hv : visitor (run ops) ip t = some (l, s1)) (k : String) :
    ((lookupS (run ops).storage k).isSome = true →
      (lookupS s1.storage k).isSome = true) ∧
    ((lookupS s1.storage k).isSome = true →
      k = ip ∨ (lookupS (run ops).storage k).isSome = true) := by
  obtain ⟨r, hst⟩ := visitor_storage_insert _ _ _ _ _ hv
  rw [hst]
  by_cases hk : k = ip
  · subst hk
    rw [lookupS_insertS_self]
    exact ⟨fun _ => rfl, fun _ => Or.inl rfl⟩
  · rw [lookupS_insertS_ne _ _ _ _ hk]
    exact ⟨id, fun h => Or.inr h⟩

/-- Witness for the C9 theorem: its hypothesis holds, and its conclusion is
evaluated, at the concrete input of the empty operation history, identity a
looked up at time 0 yielding bucket 0 and the one-entry state. -/
theorem visitor_only_adds_witness :
    ((lookupS (run []).storage "a").isSome = true →
      (lookupS (limiterState.mk [("a", some (record.mk 0 0))] 1).storage
          "a").isSome = true) ∧
    ((lookupS (limiterState.mk [("a", some (record.mk 0 0))] 1).storage
        "a").isSome = true →
      "a" = "a" ∨ (lookupS (run []).storage "a").isSome = true) :=
  visitor_only_adds [] "a" 0 0
    (limiterState.mk [("a", some (record.mk 0 0))] 1) (by rfl) "a"

theorem tryAdmit_zero_rate (C m : Nat) (hm : m ≤ C) (t0 t : Rat) :
    tryAdmit (Bucket.mk (C : Rat) 0 (m : Rat) t0) t =
      (decide (0 < m), Bucket.mk (C : Rat) 0 ((m - 1 : Nat) : Rat) t) := by
  have hmc : ((m : Rat)) ≤ (C : Rat) := by exact_mod_cast hm
  unfold tryAdmit
  simp only [mul_zero, add_zero]
  rw [min_eq_right hmc]
  cases m with
  | zero =>
    rw [if_neg (by norm_num)]
    simp
  | succ j =>
    rw [if_pos (by exact_mod_cast Nat.succ_le_succ (Nat.zero_le j))]
    have h1 : ((Nat.succ j : Nat) : Rat) - 1 = ((Nat.succ j - 1 : Nat) : Rat) := by
      push_cast [Nat.succ_sub_one]
      ring
    have hd : decide (0 < Nat.succ j) = true := decide_eq_true (Nat.succ_pos j)
    rw [h1, hd]

theorem runBucket_zero_rate (C : Nat) (ts : List Rat) : ∀ (m : Nat), m ≤ C → ∀ (t0 : Rat),
    runBucket (Bucket.mk (C : Rat) 0 (m : Rat) t0) ts =
      (List.range ts.length).map (fun i => decide (i < m)) := by
  induction ts with
  | nil =>
    intro m hm t0
    rfl
  | cons t ts ih =>
    intro m hm t0
    simp only [runBucket, tryAdmit_zero_rate C m hm t0 t]
    rw [ih (m - 1) (le_trans (Nat.sub_le m 1) hm) t]
    rw [List.length_cons, List.range_succ_eq_map, List.map_cons, List.map_map]
    congr 1
    refine List.map_congr_left fun i _ => ?_
    show decide (i < m - 1) = decide (Nat.succ i < m)
    rw [decide_eq_decide]
    omega

/-- C7: a bucket with capacity C whose refill rate comes from requests = 0
over any custom period (rate.Limit 0), starting with its full burst of C
tokens, admits exactly the first C calls and rejects every later one,
whatever the call times: the i-th admission result is true exactly when
i < C, with no replenishment ever. The bucket is modelled from the spec,
since the rate.Limiter implementation is external to the repository. -/
theorem rate_zero_first_capacity (C : Nat) (per : Rat) (ts : List Rat) :
    runBucket (Bucket.mk (C : Rat) (mkLimit 0 per) (C : Rat) 0) ts =
      (List.range ts.length).map (fun i => decide (i < C)) := by
  have h : mkLimit 0 per = 0 := by
    unfold mkLimit
    norm_num
  rw [h]
  exact runBucket_zero_rate C ts C le_rfl 0

/-- C10: whiteListed holds exactly when the identity is a member of the exact
allow-list or some allow-listed prefix is a string prefix of the identity
(first conjunct, for every configuration and identity); concretely, the
allow-listed prefix 10. matches 10.0.0.2 and does not match 110.0.0.2. -/
theorem whiteListed_iff_member_or_prefix_match :
    (∀ (opts : LimiterOptions) (ip : String),
      whiteListed opts ip = true ↔
        (ip ∈ opts.allowedIPs ∨ ∃ p ∈ opts.allowedPrefix, p.data <+: ip.data)) ∧
    whiteListed (AllowedPrefixes ["10."] defautlOptions) "10.0.0.2" = true ∧
    whiteListed (AllowedPrefixes ["10."] defautlOptions) "110.0.0.2" = false := by
  refine ⟨?_, by decide, by decide⟩
  intro opts ip
  simp only [whiteListed, hasWhitelistedPrefix, Bool.or_eq_true, List.contains,
    List.elem_iff, List.any_eq_true, List.isPrefixOf_iff_prefix]

end Limiter
